import Mathlib

/-!
Verification of the metadata inference and evaluation engine of the
Meta-data repository (Streamlit variants: Metadata.py, Evaluation.py,
ISO.py, evaluation_model.py, test.py, comp.py).

The Python code is shallowly embedded:
  * Python values flowing through the scoring engine (None, numbers,
    strings, lists of strings) are the inductive type `Value`; numbers are
    modelled as rationals.
  * pandas DataFrames are `DataFrame`: a list of named, dtype-tagged
    columns of cells plus a row count; `Wf` states the pandas invariant
    that every column has exactly `nrows` cells.
  * Python string operations (`strip`, `upper`, `lower`, `replace`,
    substring `in`, `startswith`, `split('\n')`) are implemented on
    `List Char`.  `upper`/`lower` handle the ASCII letter range, which is
    all the engine's vocabulary uses.  Decimal rendering of non-integer
    rationals differs from Python float repr; no claim depends on it.
  * Fallible Python code (ZeroDivisionError, IndexError, ValueError,
    TypeError) returns `Except String`.
Each source function keeps its Python name inside a namespace named after
its file.
-/

/-- A Python value as it flows through the scoring engine: `None`, a
number, a string, or a list of strings (the geometry lists produced by
`unique().tolist()`). -/
inductive Value where
  | null : Value
  | num : ℚ → Value
  | str : String → Value
  | vlist : List String → Value
deriving DecidableEq

/-- The single-quote character, used by Python repr of strings. -/
def pySq : String := String.mk [Char.ofNat 39]

/-- Python `repr` for the strings inside a list (used by `str` of a list). -/
def pyReprStr (s : String) : String := pySq ++ s ++ pySq

/-- Decimal rendering of a rational; integers print as Python ints do.
(Python renders non-integer floats differently; no claim depends on it.) -/
def numToStr (q : ℚ) : String := if q.den = 1 then toString q.num else toString q

/-- Python `str()` on a `Value`. -/
def pyStr : Value → String
  | .null => "None"
  | .num q => numToStr q
  | .str s => s
  | .vlist xs => "[" ++ String.intercalate ", " (xs.map pyReprStr) ++ "]"

/-! ### Python string primitives on `List Char` -/

/-- Python whitespace characters recognised by `str.strip()`. -/
def isPyWS (c : Char) : Bool :=
  c.toNat == 32 || c.toNat == 9 || c.toNat == 10 ||
  c.toNat == 13 || c.toNat == 11 || c.toNat == 12

/-- ASCII uppercase conversion of one character (Python `str.upper`). -/
def upChar (c : Char) : Char :=
  if 97 ≤ c.toNat ∧ c.toNat ≤ 122 then Char.ofNat (c.toNat - 32) else c

/-- ASCII lowercase conversion of one character (Python `str.lower`). -/
def lowChar (c : Char) : Char :=
  if 65 ≤ c.toNat ∧ c.toNat ≤ 90 then Char.ofNat (c.toNat + 32) else c

/-- Python `str.upper` on the character list. -/
def pyUpperL (l : List Char) : List Char := l.map upChar

/-- Python `str.lower` on the character list. -/
def pyLowerL (l : List Char) : List Char := l.map lowChar

/-- Python `str.strip()`: drop whitespace from both ends. -/
def pyStripL (l : List Char) : List Char :=
  ((l.dropWhile isPyWS).reverse.dropWhile isPyWS).reverse

/-- Fuelled worker for Python `str.replace`: scan left to right, replace
every non-overlapping occurrence of `pat`, continue after the replacement.
The fuel only needs to dominate the length of the scanned list. -/
def replaceFuel (pat rep : List Char) : ℕ → List Char → List Char
  | _, [] => []
  | 0, l => l
  | f + 1, c :: t =>
      if pat.isPrefixOf (c :: t) then
        rep ++ replaceFuel pat rep f ((c :: t).drop pat.length)
      else
        c :: replaceFuel pat rep f t

/-- Python `s.replace(pat, rep)` (for the engine's non-empty patterns). -/
def replaceL (pat rep l : List Char) : List Char := replaceFuel pat rep l.length l

/-- Python substring test `pat in l`. -/
def occursL (pat : List Char) : List Char → Bool
  | [] => pat.isPrefixOf []
  | c :: t => pat.isPrefixOf (c :: t) || occursL pat t

/-- Python `pat in s` on strings. -/
def pyIn (pat s : String) : Bool := occursL pat.toList s.toList

/-- Python `s.split('\n')` on the character list. -/
def splitNL : List Char → List (List Char)
  | [] => [[]]
  | c :: t =>
      if c = '\n' then [] :: splitNL t
      else
        match splitNL t with
        | [] => [[c]]
        | h :: rest => (c :: h) :: rest

/-- The lines of a string, as split on the newline character (the line
starts at which a `re.MULTILINE` caret matches). -/
def pyLines (s : String) : List (List Char) := splitNL s.toList

/-- Python `tok.startswith`, after lowering both sides (models a
case-insensitive regex match of `tok` at the start of `line`). -/
def startsWithCI (tok : String) (line : List Char) : Bool :=
  (pyLowerL tok.toList).isPrefixOf (pyLowerL line)

/-- The pattern of the engine's synonym fold, `"MULTIPOLYGON"`. -/
def mpPat : List Char := "MULTIPOLYGON".toList

/-- The replacement of the engine's synonym fold, `"POLYGON"`. -/
def pgRep : List Char := "POLYGON".toList

/-! ### The tabular data model (pandas DataFrame) -/

/-- A pandas column dtype, as far as the engine inspects it. -/
inductive Dtype where
  | int64 : Dtype
  | float64 : Dtype
  | object : Dtype
deriving DecidableEq

/-- A named column: its dtype label and its cells (top to bottom). -/
structure Column where
  name : String
  dtype : Dtype
  cells : List Value
deriving DecidableEq

/-- A loaded dataset: ordered columns plus the row count `len(df)`. -/
structure DataFrame where
  cols : List Column
  nrows : ℕ
deriving DecidableEq

/-- The pandas invariant: every column holds exactly `nrows` cells. -/
def Wf (df : DataFrame) : Prop := ∀ c ∈ df.cols, c.cells.length = df.nrows

instance : DecidablePred Wf := fun df =>
  inferInstanceAs (Decidable (∀ c ∈ df.cols, c.cells.length = df.nrows))

/-- `name in df.columns` / `df[name]`: the first column of that name. -/
def findCol (df : DataFrame) (n : String) : Option Column :=
  df.cols.find? (fun c => c.name = n)

/-- Boolean form of `name in df.columns`. -/
def hasCol (df : DataFrame) (n : String) : Bool := (findCol df n).isSome

/-- `pd.api.types.is_numeric_dtype`. -/
def isNumericDtype : Dtype → Bool
  | .int64 => true
  | .float64 => true
  | .object => false

/-- `pd.api.types.is_integer_dtype`. -/
def isIntegerDtype : Dtype → Bool
  | .int64 => true
  | _ => false

/-- `pd.api.types.is_float_dtype`. -/
def isFloatDtype : Dtype → Bool
  | .float64 => true
  | _ => false

/-- `series.count()`: the number of non-null cells. -/
def nonNullCount (c : Column) : ℕ := (c.cells.filter (fun v => v ≠ Value.null)).length

/-- `series.nunique()`: the number of distinct non-null cells. -/
def nunique (c : Column) : ℕ := ((c.cells.filter (fun v => v ≠ Value.null)).dedup).length

/-- Python `a / b` on naturals: `ZeroDivisionError` when `b = 0`. -/
def pyDivNat (a b : ℕ) : Except String ℚ :=
  if b = 0 then .error "ZeroDivisionError" else .ok ((a : ℚ) / (b : ℚ))

/-- `pd.to_numeric(·, errors='coerce')` on one cell: numbers pass through,
everything else becomes NaN (modelled as `none`; numeric text is out of the
modelled cell vocabulary). -/
def pyToNumeric : Value → Option ℚ
  | .num q => some q
  | _ => none

/-- `series.between(lo, hi).all()` after `to_numeric` coercion: NaN compares
false, bounds are inclusive, and an empty series yields `true`. -/
def seriesBetweenAll (cells : List Value) (lo hi : ℚ) : Bool :=
  cells.all (fun v =>
    match pyToNumeric v with
    | some q => decide (lo ≤ q ∧ q ≤ hi)
    | none => false)

/-- `series.between(lo, hi).all()` WITHOUT coercion, as Metadata.py and
evaluation_model.py call it: numbers are range-checked, NaN compares
false, but a string (or list) cell makes the element-wise comparison
raise TypeError.  The accumulator carries the running `all()`. -/
def seriesBetweenAllRaw (lo hi : ℚ) : List Value → Bool → Except String Bool
  | [], acc => .ok acc
  | v :: t, acc =>
      match v with
      | .num q => seriesBetweenAllRaw lo hi t (acc && decide (lo ≤ q ∧ q ≤ hi))
      | .null => seriesBetweenAllRaw lo hi t false
      | _ => .error "TypeError"

namespace Test

/-- `infer_crs` (test.py lines 13-30): WGS84 exactly when LAT and LNG
columns exist and all their values are in geographic bounds.  This is the
coercing variant: `pd.to_numeric(errors='coerce')` turns non-numeric
cells into NaN before `between`, so it cannot raise (its try/except never
fires).  The bare-`between` variant of Metadata.py lines 20-35 and
evaluation_model.py lines 42-57, which CAN raise TypeError, is embedded
separately as `Metadata.infer_crs`. -/
def infer_crs (df : DataFrame) : List (String × String) :=
  match findCol df "LAT", findCol df "LNG" with
  | some latc, some lngc =>
      if seriesBetweenAll latc.cells (-90) 90 && seriesBetweenAll lngc.cells (-180) 180 then
        [("auth_name", "EPSG"), ("code", "4326"), ("name", "WGS 84"),
         ("units", "Decimal Degrees")]
      else
        [("name", "Unknown / Projected"), ("code", "Undefined")]
  | _, _ => [("name", "Unknown / Projected"), ("code", "Undefined")]

/-- The WGS84 descriptor returned by `infer_crs`. -/
def wgs84Descriptor : List (String × String) :=
  [("auth_name", "EPSG"), ("code", "4326"), ("name", "WGS 84"),
   ("units", "Decimal Degrees")]

/-- The fallback descriptor returned by `infer_crs`. -/
def unknownProjected : List (String × String) :=
  [("name", "Unknown / Projected"), ("code", "Undefined")]

end Test

namespace Metadata

/-- `infer_crs` (Metadata.py lines 20-35, identical in evaluation_model.py
lines 42-57): unlike test.py's variant there is no `to_numeric` coercion
and no try/except, so `df['LAT'].between(-90, 90)` on a column holding a
non-numeric cell raises TypeError instead of reaching the sentinel
return.  Both between checks are evaluated before the combined test, and
the WGS84 dict carries the extra "type" key of these two files. -/
def infer_crs (df : DataFrame) : Except String (List (String × String)) :=
  match findCol df "LAT", findCol df "LNG" with
  | some latc, some lngc => do
      let lat_check ← seriesBetweenAllRaw (-90) 90 latc.cells true
      let lng_check ← seriesBetweenAllRaw (-180) 180 lngc.cells true
      if lat_check && lng_check then
        Except.ok [("auth_name", "EPSG"), ("code", "4326"), ("name", "WGS 84"),
                   ("units", "Decimal Degrees"), ("type", "Geographic 2D")]
      else
        Except.ok [("name", "Unknown / Projected"), ("code", "Undefined")]
  | _, _ => Except.ok [("name", "Unknown / Projected"), ("code", "Undefined")]

end Metadata

namespace EvalModel

/-- The Completeness gate of `calculate_veregin_score`
(evaluation_model.py line 140): `inferred_val is not None and
str(inferred_val) != "Unknown" and inferred_val != []`. -/
def compCond (v : Value) : Bool :=
  decide (v ≠ Value.null) && decide (pyStr v ≠ "Unknown") && decide (v ≠ Value.vlist [])

/-- The inner `normalize` of `calculate_veregin_score`
(evaluation_model.py lines 148-150, identical in test.py lines 105-107):
lists are reduced to their first element (or the empty string), then
`str(v).strip().upper().replace("MULTIPOLYGON", "POLYGON")`. -/
def normalize (v : Value) : String :=
  let v' : Value :=
    match v with
    | .vlist (x :: _) => .str x
    | .vlist [] => .str ""
    | w => w
  String.mk (replaceL mpPat pgRep (pyUpperL (pyStripL (pyStr v').toList)))

/-- `calculate_veregin_score` (evaluation_model.py lines 135-170).  The
Python dict is modelled as an insertion-ordered association list; the
short-circuit return carries only the four criterion keys, the full path
appends "Total". -/
def calculate_veregin_score (inferred_val reference_val : Value) : List (String × ℤ) :=
  if compCond inferred_val then
    let inf_norm := normalize inferred_val
    let ref_norm := normalize reference_val
    let corr : ℤ :=
      if inf_norm = ref_norm ∧ inf_norm ≠ "" then 2
      else if pyIn inf_norm ref_norm || pyIn ref_norm inf_norm then 1
      else 0
    let gran : ℤ :=
      if pyIn "POINT" inf_norm || pyIn "LINE" inf_norm || pyIn "POLYGON" inf_norm then 2
      else 1
    [("Correctness", corr), ("Completeness", 2), ("Consistency", 2),
     ("Granularity", gran), ("Total", corr + 2 + 2 + gran)]
  else
    [("Correctness", 0), ("Completeness", 0), ("Consistency", 0), ("Granularity", 0)]

/-- `parse_mif_reference` (evaluation_model.py lines 12-40, test.py lines
33-52): geometry by prioritised substring checks, feature count by counting
lines that start (case-insensitively) with a MIF object keyword; zero
matches report the string "Unknown".  The reference dict's constant
`geographic_extent` entry of evaluation_model.py is omitted as inert.
Bytes decoding always succeeds (UTF-8 with Latin-1 fallback), so the input
is modelled as the decoded text. -/
def parse_mif_reference (content : String) : List (String × Value) :=
  let geom : String :=
    if pyIn "Region" content then "POLYGON"
    else if pyIn "Line" content || pyIn "Pline" content then "LINESTRING"
    else if pyIn "Point" content then "POINT"
    else "Unknown"
  let features : ℕ :=
    ((pyLines content).filter (fun l =>
      ["Point", "Line", "Pline", "Region", "Rect", "Ellipse", "Arc"].any
        (fun tok => startsWithCI tok l))).length
  [("geometry_type", Value.str geom),
   ("total_features", if features > 0 then Value.num features else Value.str "Unknown")]

end EvalModel

namespace Evaluation

/-- The record built by the three `run_*` methods of Evaluation.py:
geometry, `len(df.columns)`, and the reported feature total. -/
structure InferredMeta where
  geometry_type : Value
  attribute_count : ℕ
  total_features : ℕ
deriving DecidableEq

/-- Per-cell `'.str.extract(r'^([A-Z]+)', expand=False)'`: the leading run
of uppercase ASCII letters, or NaN when the cell is not a string or the
run is empty. -/
def extractLeadUpper (v : Value) : Value :=
  match v with
  | .str s =>
      let t := s.toList.takeWhile (fun c => decide (65 ≤ c.toNat ∧ c.toNat ≤ 90))
      if t.isEmpty then Value.null else Value.str (String.mk t)
  | _ => Value.null

/-- `run_rule_based` (Evaluation.py lines 28-34).  `.iloc[0]` raises
IndexError on an empty frame when the WKT column is present. -/
def run_rule_based (df : DataFrame) : Except String InferredMeta :=
  match findCol df "WKT_LNG_LAT" with
  | some c =>
      match c.cells.head? with
      | some v =>
          .ok { geometry_type := extractLeadUpper v,
                attribute_count := df.cols.length,
                total_features := df.nrows }
      | none => .error "IndexError"
  | none =>
      .ok { geometry_type := .str "Unknown",
            attribute_count := df.cols.length,
            total_features := df.nrows }

/-- The columns summarised by `df.describe()`: the numeric columns, or all
columns when there is no numeric one; no columns at all raises. -/
def describeCols (df : DataFrame) : List Column :=
  let nums := df.cols.filter (fun c => isNumericDtype c.dtype)
  if nums.isEmpty then df.cols else nums

/-- `run_statistical` (Evaluation.py lines 37-43).  Its feature total is
`df.describe().loc['count'].max()`: the largest per-column non-null count
among the described columns, not `len(df)`. -/
def run_statistical (df : DataFrame) : Except String InferredMeta :=
  match (describeCols df).map nonNullCount with
  | [] => .error "ValueError"
  | x :: xs =>
      .ok { geometry_type := if hasCol df "LNG" then .str "POINT" else .str "Unknown",
            attribute_count := df.cols.length,
            total_features := (x :: xs).foldl max 0 }

/-- `run_heuristic` (Evaluation.py lines 46-55). -/
def run_heuristic (df : DataFrame) : InferredMeta :=
  { geometry_type :=
      if hasCol df "LAT" || hasCol df "LNG" || hasCol df "WKT" then .str "POINT"
      else .str "Unknown",
    attribute_count := df.cols.length,
    total_features := df.nrows }

/-- Python `str.isalpha()` over the ASCII letters the engine's vocabulary
uses: non-empty and all alphabetic. -/
def pyIsAlpha (s : String) : Bool :=
  !s.toList.isEmpty &&
    s.toList.all (fun c =>
      decide ((65 ≤ c.toNat ∧ c.toNat ≤ 90) ∨ (97 ≤ c.toNat ∧ c.toNat ≤ 122)))

/-- `isinstance(v, (int, float))`. -/
def isNumInstance : Value → Bool
  | .num _ => true
  | _ => false

/-- `score_veregin` (Evaluation.py lines 59-75).  There is no
short-circuit: Consistency and Granularity are computed even when
Completeness is 0. -/
def score_veregin (inferred reference : Value) : List (String × ℤ) :=
  let correctness : ℤ := if inferred = reference then 2 else 0
  let completeness : ℤ :=
    if inferred ≠ Value.null ∧ pyStr inferred ≠ "Unknown" then 2 else 0
  let consistency : ℤ := if pyIsAlpha (pyStr inferred) || isNumInstance inferred then 2 else 1
  let granularity : ℤ := if (pyStr inferred).length > 0 then 2 else 0
  [("Correctness", correctness), ("Completeness", completeness),
   ("Consistency", consistency), ("Granularity", granularity),
   ("Total", correctness + completeness + consistency + granularity)]

end Evaluation

namespace ISO

/-- `get_heuristic_metadata` (ISO.py lines 56-72): the classifications
dict, built column by column.  `unique_ratio = df[col].nunique() / len(df)`
is evaluated before any guard, so a 0-row frame with at least one column
raises ZeroDivisionError.  (The surrounding constant "method" key and the
`total_features = len(df)` key of the returned dict are inert and not
modelled.) -/
def get_heuristic_metadata (df : DataFrame) : Except String (List (String × String)) :=
  df.cols.foldlM
    (fun acc c => do
      let unique_ratio ← pyDivNat (nunique c) df.nrows
      let role : String :=
        if isIntegerDtype c.dtype ∧ unique_ratio > 9 / 10 then "Identifier"
        else if nunique c < 10 then "Categorical"
        else if isFloatDtype c.dtype then "Continuous"
        else "General"
      pure (acc ++ [(c.name, role)]))
    []

/-- The `geometry_type` computed by `parse_mif` (ISO.py lines 77-101):
scan every line, strip it, and on a line starting (case-sensitively) with
Point/Line/Pline/Region remember that line's first whitespace-separated
token — so the LAST matching line wins, and the raw MIF keyword (not a WKT
name) is returned.  The independent `Bounds` box scan of the same loop is
not modelled (no claim touches it). -/
def parse_mif_geometry_type (mif_text : String) : Option String :=
  (pyLines mif_text).foldl
    (fun acc line =>
      let l := pyStripL line
      if ["Point", "Line", "Pline", "Region"].any (fun t => t.toList.isPrefixOf l) then
        some (String.mk (l.takeWhile (fun c => !isPyWS c)))
      else acc)
    none

/-- `score_correctness` (ISO.py lines 114-121): 0 only for a null
inferred value; exact or list-membership match scores 2; every other pair
falls through to 1. -/
def score_correctness (inferred reference : Value) : ℤ :=
  if inferred = Value.null then 0
  else if inferred = reference then 2
  else if (match inferred, reference with
           | .vlist xs, .str s => xs.contains s
           | _, _ => false) then 2
  else 1

end ISO

namespace Comp

/-- The Correctness criterion of comp.py's `calculate_veregin_score`
(lines 37-42): numeric inferred values are scored by tolerance against the
ground truth (full credit under 0.01, partial under 0.5), other values by
exact string equality.  Subtracting a non-number from a number raises. -/
def correctness_score : Value → Value → Except String ℤ
  | .num i, .num a => .ok (if |i - a| < 1 / 100 then 2 else if |i - a| < 1 / 2 then 1 else 0)
  | .num _, _ => .error "TypeError"
  | v, w => .ok (if pyStr v = pyStr w then 2 else 0)

/-- `calculate_veregin_score` (comp.py lines 29-50): returns the summed
Veregin total for one field. -/
def calculate_veregin_score (inferred actual : Value) : Except String ℤ := do
  let comp : ℤ := if inferred ≠ Value.null then 2 else 0
  let corr ← correctness_score inferred actual
  let cons : ℤ := if comp = 2 ∧ corr ≥ 1 then 2 else 0
  let gran : ℤ := if (pyStr actual).length ≤ (pyStr inferred).length then 2 else 1
  pure (comp + corr + cons + gran)

end Comp


/-! ### Support lemmas about the Python string primitives -/

/-- The substring test agrees with list infixes. -/
theorem occursL_infix_equiv (pat l : List Char) : occursL pat l = true ↔ pat <:+: l := by
  induction l with
  | nil =>
      simp [occursL, List.isPrefixOf_iff_prefix]
  | cons a t ih =>
      simp [occursL, Bool.or_eq_true, List.isPrefixOf_iff_prefix, ih,
        List.infix_cons_iff]

theorem replaceFuel_nil (pat rep : List Char) (f : ℕ) : replaceFuel pat rep f [] = [] := by
  cases f <;> rfl

theorem replaceFuel_zero (pat rep : List Char) (l : List Char) :
    replaceFuel pat rep 0 l = l := by
  cases l <;> rfl

theorem replaceFuel_ne_nil (pat : List Char) (f : ℕ) (l : List Char) (hl : l ≠ []) :
    replaceFuel pat pgRep f l ≠ [] := by
  cases l with
  | nil => exact absurd rfl hl
  | cons a t =>
    cases f with
    | zero => simp [replaceFuel_zero]
    | succ f =>
      rw [replaceFuel]
      split
      · exact List.append_ne_nil_of_left_ne_nil (by decide) _
      · simp

/-- A string free of the pattern is returned unchanged by `replace`. -/
theorem replaceFuel_of_not_occurs (pat rep : List Char) (f : ℕ) :
    ∀ l : List Char, occursL pat l = false → replaceFuel pat rep f l = l := by
  induction f with
  | zero => intro l _; exact replaceFuel_zero pat rep l
  | succ f ih =>
    intro l hocc
    cases l with
    | nil => rfl
    | cons a t =>
      rw [occursL, Bool.or_eq_false_iff] at hocc
      rw [replaceFuel, if_neg (by simp [hocc.1]), ih t hocc.2]

theorem replaceFuel_head_nws (pat : List Char) (f : ℕ) (l : List Char)
    (hl : ∀ c, l.head? = some c → isPyWS c = false) :
    ∀ c, (replaceFuel pat pgRep f l).head? = some c → isPyWS c = false := by
  cases l with
  | nil => intro c hc; rw [replaceFuel_nil] at hc; cases hc
  | cons a t =>
    cases f with
    | zero => rw [replaceFuel_zero]; exact hl
    | succ f =>
      intro c hc
      rw [replaceFuel] at hc
      split at hc
      · rw [List.head?_append] at hc
        have hP : pgRep.head? = some 'P' := rfl
        rw [hP] at hc
        cases hc
        decide
      · rw [List.head?_cons] at hc
        cases hc
        exact hl a rfl

theorem getLast?_drop_of_ne_nil (l : List Char) (n : ℕ) (h : l.drop n ≠ []) :
    (l.drop n).getLast? = l.getLast? := by
  induction l generalizing n with
  | nil => simp at h
  | cons a t ih =>
    cases n with
    | zero => rfl
    | succ n =>
      rw [List.drop_succ_cons] at h ⊢
      rw [ih n h, List.getLast?_cons]
      have ht : t ≠ [] := fun e => h (by simp [e])
      obtain ⟨c, hc⟩ := Option.isSome_iff_exists.mp (List.getLast?_isSome.mpr ht)
      simp [hc]

theorem replaceFuel_last_nws (pat : List Char) (hpat : pat ≠ []) (f : ℕ) :
    ∀ l : List Char, l.length ≤ f →
      (∀ c, l.getLast? = some c → isPyWS c = false) →
      ∀ c, (replaceFuel pat pgRep f l).getLast? = some c → isPyWS c = false := by
  induction f with
  | zero =>
    intro l hf hl c hc
    rw [replaceFuel_zero] at hc
    exact hl c hc
  | succ f ih =>
    intro l hf hl c hc
    cases l with
    | nil => rw [replaceFuel_nil] at hc; cases hc
    | cons a t =>
      rw [replaceFuel] at hc
      split at hc
      · rw [List.getLast?_append] at hc
        rcases hR : (replaceFuel pat pgRep f ((a :: t).drop pat.length)).getLast? with _ | c'
        · rw [hR] at hc
          simp only [Option.none_or] at hc
          have hN : pgRep.getLast? = some 'N' := by decide
          rw [hN] at hc
          cases hc
          decide
        · rw [hR] at hc
          rw [show (some c').or pgRep.getLast? = some c' from rfl] at hc
          cases hc
          by_cases hD : (a :: t).drop pat.length = []
          · rw [hD, replaceFuel_nil] at hR
            cases hR
          · refine ih _ ?_ ?_ c hR
            · rw [List.length_drop]
              have hpl : 1 ≤ pat.length := List.length_pos.mpr hpat
              simp only [List.length_cons] at hf ⊢
              omega
            · intro d hd
              rw [getLast?_drop_of_ne_nil _ _ hD] at hd
              exact hl d hd
      · rw [List.getLast?_cons] at hc
        cases hc
        rcases hR : (replaceFuel pat pgRep f t).getLast? with _ | c'
        · by_cases ht : t = []
          · subst ht
            simp only [hR, Option.getD_none]
            exact hl a (by simp)
          · have := List.getLast?_isSome.mpr (replaceFuel_ne_nil pat f t ht)
            rw [hR] at this
            cases this
        · simp only [hR, Option.getD_some]
          refine ih t ?_ ?_ c' hR
          · simp only [List.length_cons] at hf
            omega
          · intro d hd
            have ht : t ≠ [] := by intro e; rw [e] at hd; cases hd
            refine hl d ?_
            rw [List.getLast?_cons, hd, Option.getD_some]

/-- Uppercasing a character never changes its whitespace status. -/
theorem upChar_isPyWS (c : Char) : isPyWS (upChar c) = isPyWS c := by
  by_cases h : 97 ≤ c.toNat ∧ c.toNat ≤ 122
  · have e : upChar c = Char.ofNat (c.toNat - 32) := by simp [upChar, h]
    have hc : isPyWS c = false := by
      simp only [isPyWS, Bool.or_eq_false_iff, beq_eq_false_iff_ne, ne_eq]
      omega
    rw [e, hc]
    obtain ⟨h1, h2⟩ := h
    generalize hg : c.toNat = m at h1 h2
    interval_cases m <;> decide
  · simp [upChar, h]

/-- ASCII uppercasing is idempotent. -/
theorem upChar_idem (c : Char) : upChar (upChar c) = upChar c := by
  by_cases h : 97 ≤ c.toNat ∧ c.toNat ≤ 122
  · have e : upChar c = Char.ofNat (c.toNat - 32) := by simp [upChar, h]
    rw [e]
    obtain ⟨h1, h2⟩ := h
    generalize hg : c.toNat = m at h1 h2
    interval_cases m <;> decide
  · have e : upChar c = c := by simp [upChar, h]
    rw [e, e]

/-- Every character of a replaced string is fixed by `upChar` when the
input's characters are. -/
theorem replaceFuel_up_fixed (pat : List Char) (f : ℕ) :
    ∀ l : List Char, (∀ c ∈ l, upChar c = c) →
      ∀ c ∈ replaceFuel pat pgRep f l, upChar c = c := by
  induction f with
  | zero =>
    intro l hl c hc
    rw [replaceFuel_zero] at hc
    exact hl c hc
  | succ f ih =>
    intro l hl c hc
    cases l with
    | nil => rw [replaceFuel_nil] at hc; cases hc
    | cons a t =>
      rw [replaceFuel] at hc
      split at hc
      · rw [List.mem_append] at hc
        rcases hc with hc | hc
        · revert hc
          revert c
          decide
        · refine ih _ ?_ c hc
          intro d hd
          exact hl d (List.drop_subset _ _ hd)
      · rw [List.mem_cons] at hc
        rcases hc with hc | hc
        · subst hc
          exact hl _ (List.mem_cons_self _ _)
        · refine ih t ?_ c hc
          intro d hd
          exact hl d (List.mem_cons_of_mem a hd)

/-- The head of `dropWhile isPyWS` is not whitespace. -/
theorem dropWhile_head_nws (l : List Char) :
    ∀ c, (l.dropWhile isPyWS).head? = some c → isPyWS c = false := by
  induction l with
  | nil => intro c hc; cases hc
  | cons a t ih =>
    intro c hc
    rw [List.dropWhile_cons] at hc
    by_cases ha : isPyWS a = true
    · rw [if_pos ha] at hc
      exact ih c hc
    · rw [if_neg ha, List.head?_cons] at hc
      cases hc
      exact Bool.not_eq_true _ ▸ ha

/-- The stripped string does not end in whitespace. -/
theorem stripL_last_nws (l : List Char) :
    ∀ c, (pyStripL l).getLast? = some c → isPyWS c = false := by
  intro c hc
  rw [pyStripL, List.getLast?_reverse] at hc
  exact dropWhile_head_nws _ c hc

/-- The stripped string does not start with whitespace. -/
theorem stripL_head_nws (l : List Char) :
    ∀ c, (pyStripL l).head? = some c → isPyWS c = false := by
  intro c hc
  rw [pyStripL, List.head?_reverse] at hc
  obtain ⟨s, hs⟩ := List.dropWhile_suffix
    (l := (l.dropWhile isPyWS).reverse) (p := isPyWS)
  have hR : ((l.dropWhile isPyWS).reverse).getLast? = some c := by
    rw [← hs, List.getLast?_append, hc]
    rfl
  rw [List.getLast?_reverse] at hR
  exact dropWhile_head_nws l c hR

/-- A string with no whitespace at either end is fixed by `strip`. -/
theorem stripL_eq_self (l : List Char)
    (h1 : ∀ c, l.head? = some c → isPyWS c = false)
    (h2 : ∀ c, l.getLast? = some c → isPyWS c = false) :
    pyStripL l = l := by
  have e1 : l.dropWhile isPyWS = l := by
    cases l with
    | nil => rfl
    | cons a t =>
      rw [List.dropWhile_cons, if_neg]
      rw [h1 a rfl]
      simp
  rw [pyStripL, e1]
  have e2 : l.reverse.dropWhile isPyWS = l.reverse := by
    cases hr : l.reverse with
    | nil => rfl
    | cons b t2 =>
      have hb : l.getLast? = some b := by
        rw [← List.head?_reverse, hr, List.head?_cons]
      rw [List.dropWhile_cons, if_neg]
      rw [h2 b hb]
      simp
  rw [e2, List.reverse_reverse]

theorem upperL_head_nws (l : List Char)
    (h : ∀ c, l.head? = some c → isPyWS c = false) :
    ∀ c, (pyUpperL l).head? = some c → isPyWS c = false := by
  intro c hc
  rw [pyUpperL, List.head?_map] at hc
  cases hx : l.head? with
  | none => rw [hx] at hc; cases hc
  | some x =>
    rw [hx] at hc
    cases hc
    rw [upChar_isPyWS]
    exact h x hx

theorem upperL_last_nws (l : List Char)
    (h : ∀ c, l.getLast? = some c → isPyWS c = false) :
    ∀ c, (pyUpperL l).getLast? = some c → isPyWS c = false := by
  intro c hc
  rw [pyUpperL, List.getLast?_map] at hc
  cases hx : l.getLast? with
  | none => rw [hx] at hc; cases hc
  | some x =>
    rw [hx] at hc
    cases hc
    rw [upChar_isPyWS]
    exact h x hx

/-- Every normalised value has some underlying stringified input. -/
theorem normalize_shape (v : Value) :
    ∃ s0 : List Char,
      EvalModel.normalize v = String.mk (replaceL mpPat pgRep (pyUpperL (pyStripL s0))) := by
  cases v with
  | null => exact ⟨_, rfl⟩
  | num q => exact ⟨_, rfl⟩
  | str s => exact ⟨_, rfl⟩
  | vlist xs => cases xs with
    | nil => exact ⟨_, rfl⟩
    | cons x t => exact ⟨_, rfl⟩

/-- The output of `normalize` carries no whitespace at either end, so a
second `strip` is the identity on it. -/
theorem normalize_strip_fixed (v : Value) :
    pyStripL (EvalModel.normalize v).toList = (EvalModel.normalize v).toList := by
  obtain ⟨s0, hs⟩ := normalize_shape v
  rw [hs]
  show pyStripL (replaceL mpPat pgRep (pyUpperL (pyStripL s0))) = _
  apply stripL_eq_self
  · exact replaceFuel_head_nws mpPat _ _ (upperL_head_nws _ (stripL_head_nws s0))
  · exact replaceFuel_last_nws mpPat (by decide) _ _ le_rfl
      (upperL_last_nws _ (stripL_last_nws s0))

/-- The output of `normalize` is all-uppercase, so a second `upper` is the
identity on it. -/
theorem normalize_upper_fixed (v : Value) :
    pyUpperL (EvalModel.normalize v).toList = (EvalModel.normalize v).toList := by
  obtain ⟨s0, hs⟩ := normalize_shape v
  rw [hs]
  show pyUpperL (replaceL mpPat pgRep (pyUpperL (pyStripL s0))) = _
  have hfix : ∀ c ∈ replaceL mpPat pgRep (pyUpperL (pyStripL s0)), upChar c = c := by
    apply replaceFuel_up_fixed
    intro c hc
    rw [pyUpperL, List.mem_map] at hc
    obtain ⟨x, _, hx⟩ := hc
    rw [← hx]
    exact upChar_idem x
  have hid : ∀ c ∈ replaceL mpPat pgRep (pyUpperL (pyStripL s0)), upChar c = id c := hfix
  rw [pyUpperL, List.map_congr_left hid, List.map_id]
  rfl

/-- Normalisation is idempotent on every value whose normal form does not
contain the fold pattern "MULTIPOLYGON". -/
theorem normalize_idem_of_not_contains (v : Value)
    (h : ¬ mpPat <:+: (EvalModel.normalize v).toList) :
    EvalModel.normalize (.str (EvalModel.normalize v)) = EvalModel.normalize v := by
  have hocc : occursL mpPat (EvalModel.normalize v).toList = false := by
    cases hb : occursL mpPat (EvalModel.normalize v).toList with
    | false => rfl
    | true => exact absurd ((occursL_infix_equiv _ _).mp hb) h
  show String.mk
      (replaceL mpPat pgRep
        (pyUpperL (pyStripL (pyStr (Value.str (EvalModel.normalize v))).toList))) = _
  show String.mk
      (replaceL mpPat pgRep (pyUpperL (pyStripL (EvalModel.normalize v).toList))) = _
  rw [normalize_strip_fixed, normalize_upper_fixed, replaceL,
    replaceFuel_of_not_occurs mpPat pgRep _ _ hocc]
  rfl

/-- String containment agrees with character-list infixes. -/
theorem pyIn_infix_equiv (a b : String) : pyIn a b = true ↔ a.toList <:+: b.toList :=
  occursL_infix_equiv _ _

theorem foldl_max_le (n : ℕ) : ∀ (l : List ℕ) (a : ℕ), a ≤ n → (∀ x ∈ l, x ≤ n) →
    l.foldl max a ≤ n := by
  intro l
  induction l with
  | nil => intro a ha _; exact ha
  | cons x t ih =>
    intro a ha hub
    exact ih (max a x) (max_le ha (hub x (List.mem_cons_self _ _)))
      (fun y hy => hub y (List.mem_cons_of_mem _ hy))

theorem le_foldl_max_init : ∀ (l : List ℕ) (a : ℕ), a ≤ l.foldl max a := by
  intro l
  induction l with
  | nil => intro a; exact le_rfl
  | cons x t ih =>
    intro a
    exact le_trans (le_max_left a x) (ih (max a x))

theorem le_foldl_max_of_mem (n : ℕ) : ∀ (l : List ℕ) (a : ℕ), n ∈ l → n ≤ l.foldl max a := by
  intro l
  induction l with
  | nil => intro a h; cases h
  | cons x t ih =>
    intro a h
    rcases List.mem_cons.mp h with h | h
    · subst h
      exact le_trans (le_max_right a n) (le_foldl_max_init t (max a n))
    · exact ih (max a x) h

/-- The maximum of a list of naturals all bounded by a member `n` is `n`. -/
theorem foldl_max_eq_of_mem (l : List ℕ) (n : ℕ) (hmem : n ∈ l) (hub : ∀ x ∈ l, x ≤ n) :
    l.foldl max 0 = n :=
  le_antisymm (foldl_max_le n l 0 (Nat.zero_le n) hub) (le_foldl_max_of_mem n l 0 hmem)

/-- The described columns are among the frame's columns. -/
theorem describeCols_subset (df : DataFrame) : Evaluation.describeCols df ⊆ df.cols := by
  rw [Evaluation.describeCols]
  split
  · exact fun c hc => hc
  · exact fun c hc => List.mem_of_mem_filter hc

/-- The raw (uncoerced) between-check raises TypeError whenever the
series holds a string cell, whatever came before it. -/
theorem seriesBetweenAllRaw_error_of_str (lo hi : ℚ) :
    ∀ (cells : List Value) (acc : Bool), (∃ v ∈ cells, ∃ s, v = Value.str s) →
      seriesBetweenAllRaw lo hi cells acc = .error "TypeError" := by
  intro cells
  induction cells with
  | nil =>
    intro acc h
    obtain ⟨v, hv, _⟩ := h
    cases hv
  | cons v t ih =>
    intro acc h
    obtain ⟨w, hw, s, hs⟩ := h
    rcases List.mem_cons.mp hw with heq | hmem
    · subst heq
      subst hs
      rfl
    · cases v with
      | num q => exact ih _ ⟨w, hmem, s, hs⟩
      | null => exact ih _ ⟨w, hmem, s, hs⟩
      | str s2 => rfl
      | vlist xs => rfl

/-! ### Claims -/

/-- C7: For every pair of numeric inferred and reference values, comp.py's
Correctness criterion is 2 exactly when the absolute difference is below
0.01, 1 exactly when it is at least 0.01 but below 0.5, and 0 exactly when
it is at least 0.5 (so diff 0.009 scores 2, diff 0.3 scores 1, diff 1.0
scores 0). -/
theorem numeric_tolerance_correctness (i a : ℚ) :
    (Comp.correctness_score (.num i) (.num a) = .ok 2 ↔ |i - a| < 1 / 100) ∧
    (Comp.correctness_score (.num i) (.num a) = .ok 1 ↔
      1 / 100 ≤ |i - a| ∧ |i - a| < 1 / 2) ∧
    (Comp.correctness_score (.num i) (.num a) = .ok 0 ↔ 1 / 2 ≤ |i - a|) := by
  simp only [Comp.correctness_score]
  split_ifs with h1 h2
  · exact ⟨⟨fun _ => h1, fun _ => rfl⟩,
      ⟨fun h => by simp at h, fun h => ((by linarith [h.1] : False)).elim⟩,
      ⟨fun h => by simp at h, fun h => ((by linarith : False)).elim⟩⟩
  · push_neg at h1
    exact ⟨⟨fun h => by simp at h, fun h => ((by linarith : False)).elim⟩,
      ⟨fun _ => ⟨h1, h2⟩, fun _ => rfl⟩,
      ⟨fun h => by simp at h, fun h => ((by linarith : False)).elim⟩⟩
  · push_neg at h1 h2
    exact ⟨⟨fun h => by simp at h, fun h => ((by linarith : False)).elim⟩,
      ⟨fun h => by simp at h, fun h => ((by linarith [h.2] : False)).elim⟩,
      ⟨fun _ => h2, fun _ => rfl⟩⟩

/-- C3: the claim's guarded behaviour is the spec's stated intent, but
ISO.py's `get_heuristic_metadata` divides `nunique()` by `len(df)` with no
zero-row guard: on a 0-row dataset with one column it raises
ZeroDivisionError instead of classifying the column. -/
theorem heuristic_zero_rows_raises :
    ISO.get_heuristic_metadata ⟨[⟨"A", .int64, []⟩], 0⟩ = .error "ZeroDivisionError" := rfl

/-- C5 (amended): normalising "MULTIPOLYGON" and "POLYGON" yields the same
token, and normalisation is idempotent on every value whose normalised
form does not contain "MULTIPOLYGON"; full idempotence fails because the
replacement can recreate the pattern. -/
theorem normalize_fold_and_idem :
    EvalModel.normalize (.str "MULTIPOLYGON") = EvalModel.normalize (.str "POLYGON") ∧
    ∀ v : Value, ¬ mpPat <:+: (EvalModel.normalize v).toList →
      EvalModel.normalize (.str (EvalModel.normalize v)) = EvalModel.normalize v :=
  ⟨by decide, fun v h => normalize_idem_of_not_contains v h⟩

/-- Witness for C5: a concrete value on which the amended idempotence
applies. -/
theorem normalize_fold_and_idem_witness :
    EvalModel.normalize (.str (EvalModel.normalize (.str " multiPolygon "))) =
      EvalModel.normalize (.str " multiPolygon ") :=
  normalize_fold_and_idem.2 (.str " multiPolygon ") (by decide)

/-- Counterexample for C5 as stated: normalisation is not idempotent on
"MULTIMULTIPOLYGONPOLYGON", whose replacement recreates the pattern. -/
theorem normalize_idem_counterexample :
    EvalModel.normalize (.str (EvalModel.normalize (.str "MULTIMULTIPOLYGONPOLYGON"))) ≠
      EvalModel.normalize (.str "MULTIMULTIPOLYGONPOLYGON") := by decide

/-- C2 (amended): in evaluation_model.py's scorer, an inferred value that
is null, stringifies to "Unknown", or is the empty list scores 0 on all
four criteria for every reference value. -/
theorem completeness_short_circuit_amended (inf ref : Value)
    (h : inf = Value.null ∨ pyStr inf = "Unknown" ∨ inf = Value.vlist []) :
    EvalModel.calculate_veregin_score inf ref =
      [("Correctness", 0), ("Completeness", 0), ("Consistency", 0), ("Granularity", 0)] := by
  have hc : EvalModel.compCond inf = false := by
    rcases h with h | h | h
    · simp [EvalModel.compCond, h]
    · simp [EvalModel.compCond, h]
    · simp [EvalModel.compCond, h]
  simp [EvalModel.calculate_veregin_score, hc]

/-- Witness for C2: the short-circuit at a null inferred value. -/
theorem completeness_short_circuit_witness :
    EvalModel.calculate_veregin_score Value.null (Value.str "POINT") =
      [("Correctness", 0), ("Completeness", 0), ("Consistency", 0), ("Granularity", 0)] :=
  completeness_short_circuit_amended Value.null (Value.str "POINT") (Or.inl rfl)

/-- Counterexample for C2 as stated: an empty-string inferred value passes
the Completeness gate of evaluation_model.py (scoring 2, not 0), and
Evaluation.py's `score_veregin` has no short-circuit at all, giving a null
inferred value Consistency 2. -/
theorem completeness_short_circuit_counterexample :
    (EvalModel.calculate_veregin_score (Value.str "") (Value.str "POINT")).lookup
        "Completeness" = some 2 ∧
    (Evaluation.score_veregin Value.null (Value.str "POINT")).lookup "Consistency" =
      some 2 := by
  exact ⟨by decide, by decide⟩

/-- C10: when the Completeness gate fails, evaluation_model.py's scorer
returns a mapping with exactly the four criterion keys and no "Total" key
(so a reader of "Total" gets no value rather than 0); when the gate
passes, the mapping additionally carries "Total". -/
theorem total_key_presence (inf ref : Value) :
    (EvalModel.compCond inf = false →
      (EvalModel.calculate_veregin_score inf ref).map Prod.fst =
          ["Correctness", "Completeness", "Consistency", "Granularity"] ∧
        (EvalModel.calculate_veregin_score inf ref).lookup "Total" = none) ∧
    (EvalModel.compCond inf = true →
      (EvalModel.calculate_veregin_score inf ref).map Prod.fst =
          ["Correctness", "Completeness", "Consistency", "Granularity", "Total"] ∧
        ∃ t : ℤ, (EvalModel.calculate_veregin_score inf ref).lookup "Total" = some t) := by
  constructor
  · intro hc
    simp [EvalModel.calculate_veregin_score, hc, List.lookup]
  · intro hc
    have hlk : ∀ a b c d e : ℤ,
        (([("Correctness", a), ("Completeness", b), ("Consistency", c),
            ("Granularity", d), ("Total", e)] : List (String × ℤ)).lookup "Total") =
          some e := by
      intro a b c d e
      rfl
    constructor
    · simp [EvalModel.calculate_veregin_score, hc]
    · simp only [EvalModel.calculate_veregin_score, hc, if_true]
      exact ⟨_, hlk _ _ _ _ _⟩

/-- Witness for C10: a failed gate yields no "Total" key, a passed gate
yields all five keys. -/
theorem total_key_presence_witness :
    (EvalModel.calculate_veregin_score Value.null (Value.str "A")).lookup "Total" = none ∧
    (EvalModel.calculate_veregin_score (Value.str "POINT") (Value.str "B")).map Prod.fst =
      ["Correctness", "Completeness", "Consistency", "Granularity", "Total"] :=
  ⟨((total_key_presence Value.null (Value.str "A")).1 (by decide)).2,
    ((total_key_presence (Value.str "POINT") (Value.str "B")).2 (by decide)).1⟩

/-- C6 (amended): for values passing the Completeness gate,
evaluation_model.py's Correctness is 2 exactly when the normalised values
are equal AND non-empty, 1 exactly when that fails but one normalised
string is a substring of the other, and 0 otherwise. -/
theorem correctness_substring_amended (inf ref : Value)
    (h : EvalModel.compCond inf = true) :
    ((EvalModel.calculate_veregin_score inf ref).lookup "Correctness" = some 2 ↔
      (EvalModel.normalize inf = EvalModel.normalize ref ∧ EvalModel.normalize inf ≠ "")) ∧
    ((EvalModel.calculate_veregin_score inf ref).lookup "Correctness" = some 1 ↔
      (¬(EvalModel.normalize inf = EvalModel.normalize ref ∧ EvalModel.normalize inf ≠ "") ∧
        ((EvalModel.normalize inf).toList <:+: (EvalModel.normalize ref).toList ∨
          (EvalModel.normalize ref).toList <:+: (EvalModel.normalize inf).toList))) ∧
    ((EvalModel.calculate_veregin_score inf ref).lookup "Correctness" = some 0 ↔
      (¬(EvalModel.normalize inf = EvalModel.normalize ref ∧ EvalModel.normalize inf ≠ "") ∧
        ¬((EvalModel.normalize inf).toList <:+: (EvalModel.normalize ref).toList ∨
          (EvalModel.normalize ref).toList <:+: (EvalModel.normalize inf).toList))) := by
  have hlk : (EvalModel.calculate_veregin_score inf ref).lookup "Correctness" =
      some (if EvalModel.normalize inf = EvalModel.normalize ref ∧
              EvalModel.normalize inf ≠ "" then 2
            else if pyIn (EvalModel.normalize inf) (EvalModel.normalize ref) ||
                pyIn (EvalModel.normalize ref) (EvalModel.normalize inf) then 1
            else 0) := by
    simp only [EvalModel.calculate_veregin_score, h, if_true]
    simp [List.lookup]
  have hsub : (pyIn (EvalModel.normalize inf) (EvalModel.normalize ref) ||
      pyIn (EvalModel.normalize ref) (EvalModel.normalize inf)) = true ↔
      ((EvalModel.normalize inf).toList <:+: (EvalModel.normalize ref).toList ∨
        (EvalModel.normalize ref).toList <:+: (EvalModel.normalize inf).toList) := by
    rw [Bool.or_eq_true, pyIn_infix_equiv, pyIn_infix_equiv]
  rw [hlk]
  split_ifs with h1 h2
  · refine ⟨⟨fun _ => h1, fun _ => rfl⟩,
      ⟨fun hx => by simp at hx, fun hx => absurd h1 hx.1⟩,
      ⟨fun hx => by simp at hx, fun hx => absurd h1 hx.1⟩⟩
  · refine ⟨⟨fun hx => by simp at hx, fun hx => absurd hx h1⟩,
      ⟨fun _ => ⟨h1, hsub.mp h2⟩, fun _ => rfl⟩,
      ⟨fun hx => by simp at hx, fun hx => absurd (hsub.mp h2) hx.2⟩⟩
  · have h2f : ¬((EvalModel.normalize inf).toList <:+: (EvalModel.normalize ref).toList ∨
        (EvalModel.normalize ref).toList <:+: (EvalModel.normalize inf).toList) := by
      intro hx
      exact h2 (hsub.mpr hx)
    refine ⟨⟨fun hx => by simp at hx, fun hx => absurd hx h1⟩,
      ⟨fun hx => by simp at hx, fun hx => absurd hx.2 h2f⟩,
      ⟨fun _ => ⟨h1, h2f⟩, fun _ => rfl⟩⟩

/-- Witness for C6: "POINT" against "POINT (ESTIMATED)" is a proper
substring pair and scores Correctness 1. -/
theorem correctness_substring_witness :
    (EvalModel.calculate_veregin_score (Value.str "POINT")
        (Value.str "POINT (Estimated)")).lookup "Correctness" = some 1 :=
  ((correctness_substring_amended (Value.str "POINT") (Value.str "POINT (Estimated)")
      (by decide)).2.1).mpr (by decide)

/-- Counterexample for C6 as stated: empty normalised strings compare
equal yet score Correctness 1 (not 2) in evaluation_model.py, and ISO.py's
`score_correctness` returns 1 (not 0) for completely unrelated values. -/
theorem correctness_substring_counterexample :
    EvalModel.compCond (Value.str "") = true ∧
    EvalModel.normalize (Value.str "") = EvalModel.normalize (Value.str "") ∧
    (EvalModel.calculate_veregin_score (Value.str "") (Value.str "")).lookup
      "Correctness" = some 1 ∧
    ISO.score_correctness (Value.str "ABC") (Value.str "XYZ") = 1 :=
  ⟨by decide, rfl, by decide, by decide⟩

/-- C4 (amended): evaluation_model.py's `parse_mif_reference` obeys the
fixed priority Region > Line/Pline > Point, so text containing both
"Region" and "Point" yields "POLYGON"; ISO.py's `parse_mif` does not (see
the counterexample). -/
theorem mif_geometry_priority_amended (content : String) :
    ("Region".toList <:+: content.toList →
      (EvalModel.parse_mif_reference content).lookup "geometry_type" =
        some (Value.str "POLYGON")) ∧
    (¬ "Region".toList <:+: content.toList →
      ("Line".toList <:+: content.toList ∨ "Pline".toList <:+: content.toList) →
      (EvalModel.parse_mif_reference content).lookup "geometry_type" =
        some (Value.str "LINESTRING")) ∧
    (¬ "Region".toList <:+: content.toList → ¬ "Line".toList <:+: content.toList →
      ¬ "Pline".toList <:+: content.toList → "Point".toList <:+: content.toList →
      (EvalModel.parse_mif_reference content).lookup "geometry_type" =
        some (Value.str "POINT")) := by
  have hgeom : (EvalModel.parse_mif_reference content).lookup "geometry_type" =
      some (Value.str
        (if pyIn "Region" content then "POLYGON"
         else if pyIn "Line" content || pyIn "Pline" content then "LINESTRING"
         else if pyIn "Point" content then "POINT"
         else "Unknown")) := rfl
  have hneg : ∀ pat : String, ¬ pat.toList <:+: content.toList → pyIn pat content = false := by
    intro pat hp
    cases hb : pyIn pat content with
    | false => rfl
    | true => exact absurd ((pyIn_infix_equiv pat content).mp hb) hp
  refine ⟨fun hR => ?_, fun hR hLP => ?_, fun hR hL hP hPt => ?_⟩
  · rw [hgeom, if_pos ((pyIn_infix_equiv "Region" content).mpr hR)]
  · rw [hgeom, if_neg (by rw [hneg "Region" hR]; simp), if_pos]
    rcases hLP with hL | hP
    · rw [(pyIn_infix_equiv "Line" content).mpr hL]
      simp
    · rw [(pyIn_infix_equiv "Pline" content).mpr hP]
      simp
  · rw [hgeom, if_neg (by rw [hneg "Region" hR]; simp),
      if_neg (by rw [hneg "Line" hL, hneg "Pline" hP]; simp),
      if_pos ((pyIn_infix_equiv "Point" content).mpr hPt)]

/-- Witness for C4: a MIF text holding both Region and Point declarations
is read as POLYGON by `parse_mif_reference`. -/
theorem mif_geometry_priority_witness :
    (EvalModel.parse_mif_reference "Region 5 4\nPoint 2 3").lookup "geometry_type" =
      some (Value.str "POLYGON") :=
  (mif_geometry_priority_amended "Region 5 4\nPoint 2 3").1 (by decide)

/-- Counterexample for C4 as stated: ISO.py's `parse_mif` keeps the LAST
geometry-declaring line's raw keyword, so Region-then-Point text yields
"Point", not "POLYGON". -/
theorem mif_geometry_priority_counterexample :
    ISO.parse_mif_geometry_type "Region 5 4\nPoint 2 3" = some "Point" ∧
    (some "Point" : Option String) ≠ some "POLYGON" :=
  ⟨by decide, by decide⟩

/-- C8: when no line of the MIF text starts (case-insensitively) with one
of the seven object keywords, `parse_mif_reference` reports the string
"Unknown" as total_features — never the number 0; when some line does, it
reports the count of matching lines. -/
theorem mif_total_features_sentinel (content : String) :
    ((∀ l ∈ pyLines content,
        ∀ tok ∈ ["Point", "Line", "Pline", "Region", "Rect", "Ellipse", "Arc"],
          startsWithCI tok l = false) →
      (EvalModel.parse_mif_reference content).lookup "total_features" =
        some (Value.str "Unknown")) ∧
    ((∃ l ∈ pyLines content,
        ∃ tok ∈ ["Point", "Line", "Pline", "Region", "Rect", "Ellipse", "Arc"],
          startsWithCI tok l = true) →
      (EvalModel.parse_mif_reference content).lookup "total_features" =
        some (Value.num
          ((pyLines content).filter (fun l =>
            (["Point", "Line", "Pline", "Region", "Rect", "Ellipse", "Arc"].any
              (fun tok => startsWithCI tok l)))).length)) ∧
    (EvalModel.parse_mif_reference content).lookup "total_features" ≠
      some (Value.num 0) := by
  have htf : (EvalModel.parse_mif_reference content).lookup "total_features" =
      some (if 0 < ((pyLines content).filter (fun l =>
          (["Point", "Line", "Pline", "Region", "Rect", "Ellipse", "Arc"].any
            (fun tok => startsWithCI tok l)))).length
        then Value.num ((pyLines content).filter (fun l =>
          (["Point", "Line", "Pline", "Region", "Rect", "Ellipse", "Arc"].any
            (fun tok => startsWithCI tok l)))).length
        else Value.str "Unknown") := rfl
  refine ⟨fun hnone => ?_, fun hsome => ?_, ?_⟩
  · have hz : ((pyLines content).filter (fun l =>
        (["Point", "Line", "Pline", "Region", "Rect", "Ellipse", "Arc"].any
          (fun tok => startsWithCI tok l)))).length = 0 := by
      rw [List.length_eq_zero, List.filter_eq_nil_iff]
      intro l hl
      rw [Bool.not_eq_true, List.any_eq_false]
      intro tok htok
      rw [hnone l hl tok htok]
      simp
    rw [htf, hz]
    simp
  · obtain ⟨l, hl, tok, htok, hsw⟩ := hsome
    have hp : 0 < ((pyLines content).filter (fun l =>
        (["Point", "Line", "Pline", "Region", "Rect", "Ellipse", "Arc"].any
          (fun tok => startsWithCI tok l)))).length := by
      apply List.length_pos.mpr
      apply List.ne_nil_of_mem
      show l ∈ _
      rw [List.mem_filter]
      exact ⟨hl, List.any_eq_true.mpr ⟨tok, htok, hsw⟩⟩
    rw [htf, if_pos hp]
  · rw [htf]
    split_ifs with hp
    · intro hx
      rw [Option.some.injEq, Value.num.injEq, Nat.cast_eq_zero] at hx
      omega
    · intro hx
      rw [Option.some.injEq] at hx
      cases hx

/-- Witness for C8: a keyword-free text reports the Unknown sentinel, a
two-Point text reports 2. -/
theorem mif_total_features_sentinel_witness :
    (EvalModel.parse_mif_reference "Delimiter\nCoordSys earth").lookup "total_features" =
      some (Value.str "Unknown") ∧
    (EvalModel.parse_mif_reference "Point 1 2\nPoint 3 4").lookup "total_features" =
      some (Value.num 2) := by
  constructor
  · exact (mif_total_features_sentinel "Delimiter\nCoordSys earth").1 (by decide)
  · have h := (mif_total_features_sentinel "Point 1 2\nPoint 3 4").2.1 (by decide)
    rw [h]
    decide

/-- C9: amended - test.py's coercing CRS sniff returns the WGS84
descriptor exactly when both a LAT and a LNG column exist, every LAT
value is a number in [-90, 90] and every LNG value is a number in
[-180, 180], and otherwise the "Unknown / Projected" descriptor; the
bare-`between` variant of Metadata.py / evaluation_model.py instead
raises TypeError whenever both columns exist and LAT holds a string
cell, never reaching the sentinel there. -/
theorem crs_sniff_wgs84 (df : DataFrame) :
    ((Test.infer_crs df = Test.wgs84Descriptor ↔
      ((∃ latc, findCol df "LAT" = some latc ∧
          ∀ v ∈ latc.cells, ∃ q, pyToNumeric v = some q ∧ -90 ≤ q ∧ q ≤ 90) ∧
        (∃ lngc, findCol df "LNG" = some lngc ∧
          ∀ v ∈ lngc.cells, ∃ q, pyToNumeric v = some q ∧ -180 ≤ q ∧ q ≤ 180))) ∧
    (Test.infer_crs df = Test.wgs84Descriptor ∨
      Test.infer_crs df = Test.unknownProjected)) ∧
    (∀ latc, findCol df "LAT" = some latc → hasCol df "LNG" = true →
      (∃ v ∈ latc.cells, ∃ s, v = Value.str s) →
      Metadata.infer_crs df = Except.error "TypeError") := by
  have hmeta : ∀ latc, findCol df "LAT" = some latc → hasCol df "LNG" = true →
      (∃ v ∈ latc.cells, ∃ s, v = Value.str s) →
      Metadata.infer_crs df = Except.error "TypeError" := by
    intro latc hlat2 hlng2 hstr
    rw [hasCol] at hlng2
    obtain ⟨lngc, hlngc⟩ := Option.isSome_iff_exists.mp hlng2
    unfold Metadata.infer_crs
    simp only [hlat2, hlngc]
    rw [seriesBetweenAllRaw_error_of_str (-90) 90 latc.cells true hstr]
    rfl
  have hmain : (Test.infer_crs df = Test.wgs84Descriptor ↔
      ((∃ latc, findCol df "LAT" = some latc ∧
          ∀ v ∈ latc.cells, ∃ q, pyToNumeric v = some q ∧ -90 ≤ q ∧ q ≤ 90) ∧
        (∃ lngc, findCol df "LNG" = some lngc ∧
          ∀ v ∈ lngc.cells, ∃ q, pyToNumeric v = some q ∧ -180 ≤ q ∧ q ≤ 180))) ∧
    (Test.infer_crs df = Test.wgs84Descriptor ∨
      Test.infer_crs df = Test.unknownProjected) := by
    have hb : ∀ (cells : List Value) (lo hi : ℚ), seriesBetweenAll cells lo hi = true ↔
        ∀ v ∈ cells, ∃ q, pyToNumeric v = some q ∧ lo ≤ q ∧ q ≤ hi := by
      intro cells lo hi
      rw [seriesBetweenAll, List.all_eq_true]
      constructor
      · intro h v hv
        have hx := h v hv
        cases hq : pyToNumeric v with
        | none => rw [hq] at hx; cases hx
        | some q => rw [hq] at hx; exact ⟨q, rfl, of_decide_eq_true hx⟩
      · intro h v hv
        obtain ⟨q, hq, hqr⟩ := h v hv
        rw [hq]
        exact decide_eq_true hqr
    cases hlat : findCol df "LAT" with
    | none =>
      cases hlng : findCol df "LNG" with
      | none =>
        have e : Test.infer_crs df = Test.unknownProjected := by
          unfold Test.infer_crs
          rw [hlat, hlng]
          rfl
        rw [e]
        refine ⟨⟨fun hx => absurd hx (by decide), fun hx => ?_⟩, Or.inr rfl⟩
        obtain ⟨⟨latc, hl, _⟩, _⟩ := hx
        cases hl
      | some lngc =>
        have e : Test.infer_crs df = Test.unknownProjected := by
          unfold Test.infer_crs
          rw [hlat, hlng]
          rfl
        rw [e]
        refine ⟨⟨fun hx => absurd hx (by decide), fun hx => ?_⟩, Or.inr rfl⟩
        obtain ⟨⟨latc, hl, _⟩, _⟩ := hx
        cases hl
    | some latc =>
      cases hlng : findCol df "LNG" with
      | none =>
        have e : Test.infer_crs df = Test.unknownProjected := by
          unfold Test.infer_crs
          rw [hlat, hlng]
          rfl
        rw [e]
        refine ⟨⟨fun hx => absurd hx (by decide), fun hx => ?_⟩, Or.inr rfl⟩
        obtain ⟨_, ⟨lngc, hl, _⟩⟩ := hx
        cases hl
      | some lngc =>
        have e : Test.infer_crs df =
            (if seriesBetweenAll latc.cells (-90) 90 &&
                seriesBetweenAll lngc.cells (-180) 180 then
              Test.wgs84Descriptor
            else Test.unknownProjected) := by
          unfold Test.infer_crs
          rw [hlat, hlng]
          rfl
        rw [e]
        by_cases hc : seriesBetweenAll latc.cells (-90) 90 = true ∧
            seriesBetweenAll lngc.cells (-180) 180 = true
        · rw [if_pos (by rw [hc.1, hc.2]; rfl)]
          refine ⟨⟨fun _ => ?_, fun _ => rfl⟩, Or.inl rfl⟩
          exact ⟨⟨latc, rfl, (hb _ _ _).mp hc.1⟩, ⟨lngc, rfl, (hb _ _ _).mp hc.2⟩⟩
        · rw [if_neg (by
            intro hx
            rw [Bool.and_eq_true] at hx
            exact hc hx)]
          refine ⟨⟨fun hx => absurd hx (by decide), fun hx => ?_⟩, Or.inr rfl⟩
          obtain ⟨⟨latc2, hl2, hall2⟩, ⟨lngc2, hg2, hallg2⟩⟩ := hx
          rw [Option.some.injEq] at hl2
          rw [Option.some.injEq] at hg2
          subst hl2
          subst hg2
          exact absurd ⟨(hb _ _ _).mpr hall2, (hb _ _ _).mpr hallg2⟩ hc

  exact ⟨hmain, hmeta⟩
/-- Witness for C9: a frame where both coordinate columns exist and LAT
holds a text cell, on which the Metadata.py variant raises TypeError. -/
theorem crs_sniff_wgs84_witness :
    Metadata.infer_crs
        ⟨[⟨"LAT", .object, [.num 52, .str "north"]⟩,
          ⟨"LNG", .float64, [.num 4, .num 5]⟩], 2⟩ = Except.error "TypeError" :=
  (crs_sniff_wgs84 ⟨[⟨"LAT", .object, [.num 52, .str "north"]⟩,
      ⟨"LNG", .float64, [.num 4, .num 5]⟩], 2⟩).2
    ⟨"LAT", .object, [.num 52, .str "north"]⟩ rfl rfl
    ⟨.str "north", by decide, "north", rfl⟩

/-- Counterexample for C9 as stated: on a frame whose LAT and LNG columns
hold text, Metadata.py's (and evaluation_model.py's) CRS sniff raises
TypeError — it does not return the Unknown / Projected sentinel. -/
theorem crs_sniff_wgs84_counterexample :
    Metadata.infer_crs
        ⟨[⟨"LAT", .object, [.str "52.3N"]⟩, ⟨"LNG", .object, [.str "4.9E"]⟩], 1⟩ =
      Except.error "TypeError" ∧
    (Except.error "TypeError" : Except String (List (String × String))) ≠
      Except.ok [("name", "Unknown / Projected"), ("code", "Undefined")] := by
  constructor
  · rfl
  · intro h
    exact Except.noConfusion h

/-- C1 (amended): in Evaluation.py, the Heuristic method always reports
total_features = len(df); the Rule-Based method reports len(df) whenever
it returns at all; the Statistical method reports the maximum per-column
non-null count, which equals len(df) whenever some numeric column has no
missing values — but not in general (see the counterexample). -/
theorem total_features_rowcount_amended (df : DataFrame) (hwf : Wf df) :
    (Evaluation.run_heuristic df).total_features = df.nrows ∧
    (∀ r, Evaluation.run_rule_based df = .ok r → r.total_features = df.nrows) ∧
    (∀ col ∈ df.cols, isNumericDtype col.dtype = true →
      (∀ v ∈ col.cells, v ≠ Value.null) →
      Evaluation.run_statistical df =
        .ok { geometry_type := if hasCol df "LNG" then Value.str "POINT"
                               else Value.str "Unknown",
              attribute_count := df.cols.length,
              total_features := df.nrows }) := by
  refine ⟨rfl, ?_, ?_⟩
  · intro r hr
    unfold Evaluation.run_rule_based at hr
    cases h1 : findCol df "WKT_LNG_LAT" with
    | none =>
      simp only [h1] at hr
      injection hr with hr
      rw [← hr]
    | some c =>
      simp only [h1] at hr
      cases h2 : c.cells.head? with
      | none =>
        simp only [h2] at hr
        exact Except.noConfusion hr
      | some v =>
        simp only [h2] at hr
        injection hr with hr
        rw [← hr]
  · intro col hcol hnum hnn
    have hmem : col ∈ df.cols.filter (fun c => isNumericDtype c.dtype) :=
      List.mem_filter.mpr ⟨hcol, hnum⟩
    have hne : ¬((df.cols.filter (fun c => isNumericDtype c.dtype)).isEmpty = true) := by
      rw [List.isEmpty_iff]
      exact List.ne_nil_of_mem hmem
    have hdesc : Evaluation.describeCols df =
        df.cols.filter (fun c => isNumericDtype c.dtype) := by
      rw [Evaluation.describeCols, if_neg hne]
    have hcount : nonNullCount col = df.nrows := by
      rw [nonNullCount]
      have hself : col.cells.filter (fun v => v ≠ Value.null) = col.cells := by
        rw [List.filter_eq_self]
        intro v hv
        exact decide_eq_true (hnn v hv)
      rw [hself]
      exact hwf col hcol
    cases hm : (Evaluation.describeCols df).map nonNullCount with
    | nil =>
      exfalso
      have hx : nonNullCount col ∈ (Evaluation.describeCols df).map nonNullCount := by
        rw [hdesc]
        exact List.mem_map_of_mem _ hmem
      rw [hm] at hx
      cases hx
    | cons x xs =>
      unfold Evaluation.run_statistical
      simp only [hm]
      have hfold : (x :: xs).foldl max 0 = df.nrows := by
        apply foldl_max_eq_of_mem
        · have hx : nonNullCount col ∈ (Evaluation.describeCols df).map nonNullCount := by
            rw [hdesc]
            exact List.mem_map_of_mem _ hmem
          rw [hm, hcount] at hx
          exact hx
        · intro y hy
          rw [← hm] at hy
          obtain ⟨c2, hc2, hy2⟩ := List.mem_map.mp hy
          rw [← hy2, nonNullCount]
          calc (c2.cells.filter (fun v => v ≠ Value.null)).length
              ≤ c2.cells.length := List.length_filter_le _ _
            _ = df.nrows := hwf c2 (describeCols_subset df hc2)
      rw [hfold]

/-- Witness for C1: a two-row frame with one full integer column, on which
Heuristic reports 2 and Statistical succeeds reporting 2. -/
theorem total_features_rowcount_witness :
    (Evaluation.run_heuristic ⟨[⟨"ID", .int64, [.num 1, .num 2]⟩], 2⟩).total_features = 2 ∧
    Evaluation.run_statistical ⟨[⟨"ID", .int64, [.num 1, .num 2]⟩], 2⟩ =
      .ok { geometry_type := if hasCol ⟨[⟨"ID", .int64, [.num 1, .num 2]⟩], 2⟩ "LNG"
                             then Value.str "POINT" else Value.str "Unknown",
            attribute_count := 1, total_features := 2 } := by
  constructor
  · exact (total_features_rowcount_amended ⟨[⟨"ID", .int64, [.num 1, .num 2]⟩], 2⟩
      (by decide)).1
  · exact (total_features_rowcount_amended ⟨[⟨"ID", .int64, [.num 1, .num 2]⟩], 2⟩
      (by decide)).2.2 ⟨"ID", .int64, [.num 1, .num 2]⟩ (by decide) (by decide)
      (by decide)

/-- Counterexample for C1 as stated: on a well-formed two-row frame whose
only (numeric) column has one missing value, Evaluation.py's Statistical
method reports total_features = 1, not the row count 2. -/
theorem total_features_rowcount_counterexample :
    Wf ⟨[⟨"A", .float64, [.num 1, .null]⟩], 2⟩ ∧
    Evaluation.run_statistical ⟨[⟨"A", .float64, [.num 1, .null]⟩], 2⟩ =
      .ok { geometry_type := Value.str "Unknown", attribute_count := 1,
            total_features := 1 } ∧
    (1 : ℕ) ≠ (⟨[⟨"A", .float64, [.num 1, .null]⟩], 2⟩ : DataFrame).nrows :=
  ⟨by decide, rfl, by decide⟩
